import Mathlib

/-!
Verification development for the VLESS-over-WebSocket proxy worker
(`src/index.js`).  The JavaScript source is shallowly embedded: byte
buffers become `List Nat` (each element `< 256`), `DataView` reads that
may throw on out-of-bounds access become `Option`-valued reads, platform
lookups (KV / D1 user store together with the expiration clock check in
`getUserData` / `checkExpiration`) become an oracle `Env`, and the DoH
`fetch` becomes an oracle resolver function.  Every definition mirrors
the control flow of the corresponding source function; offsets, guard
order and error strings are kept bit- and string-exact.
-/

set_option maxRecDepth 10000

/-- JS `buf.slice(s, e)` on an `ArrayBuffer` viewed as bytes: clamping,
never throwing. -/
def sliceBytes (l : List Nat) (s e : Nat) : List Nat :=
  (l.take e).drop s

/-- Model of `DataView.getUint16(i)` (big-endian): reads two bytes,
throws (`none`) when out of bounds. -/
def getUint16 (l : List Nat) (i : Nat) : Option Nat :=
  match l[i]?, l[i+1]? with
  | some a, some b => some (a * 256 + b)
  | _, _ => none

/-- Model of the user store plus expiration check: `users uuid = none`
means `getUserData` found nothing; `some b` means a user exists and `b`
is the result of `checkExpiration` on its dates at session time. -/
structure Env where
  users : String → Option Bool

/-- Two lowercase hex characters of one byte, as produced by the
`byteToHex` table (`(i + 0x100).toString(16).slice(1)`) in `src/index.js`. -/
def hexPairChars (v : Nat) : List Char :=
  [Nat.digitChar (v / 16 % 16), Nat.digitChar (v % 16)]

/-- Model of `unsafeStringify(arr, 0)` from `src/index.js`: the 36-char
dashed lowercase hex rendering of 16 bytes. -/
def uuidStringifyRaw (b : List Nat) : String :=
  String.mk
    (hexPairChars (b.getD 0 0) ++ hexPairChars (b.getD 1 0) ++
     hexPairChars (b.getD 2 0) ++ hexPairChars (b.getD 3 0) ++ ['-'] ++
     hexPairChars (b.getD 4 0) ++ hexPairChars (b.getD 5 0) ++ ['-'] ++
     hexPairChars (b.getD 6 0) ++ hexPairChars (b.getD 7 0) ++ ['-'] ++
     hexPairChars (b.getD 8 0) ++ hexPairChars (b.getD 9 0) ++ ['-'] ++
     hexPairChars (b.getD 10 0) ++ hexPairChars (b.getD 11 0) ++
     hexPairChars (b.getD 12 0) ++ hexPairChars (b.getD 13 0) ++
     hexPairChars (b.getD 14 0) ++ hexPairChars (b.getD 15 0))

/-- Character class `[0-9a-f]` under the `/i` flag. -/
def isHexCharCI (c : Char) : Bool :=
  (48 ≤ c.toNat && c.toNat ≤ 57) || (97 ≤ c.toNat && c.toNat ≤ 102) ||
  (65 ≤ c.toNat && c.toNat ≤ 70)

/-- Character class `[1-5]` (version nibble of the UUID regex). -/
def isVerChar (c : Char) : Bool :=
  49 ≤ c.toNat && c.toNat ≤ 53

/-- Character class `[89ab]` under `/i` (variant nibble of the UUID regex). -/
def isVarChar (c : Char) : Bool :=
  c == '8' || c == '9' || c == 'a' || c == 'b' || c == 'A' || c == 'B'

/-- Model of `isValidUUID` from `src/index.js`: the anchored regex
`[0-9a-f]{8}-[0-9a-f]{4}-[1-5][0-9a-f]{3}-[89ab][0-9a-f]{3}-[0-9a-f]{12}`
with the `/i` flag, decided structurally over the 36 characters. -/
def isValidUUID (s : String) : Bool :=
  match s.data with
  | a0 :: a1 :: a2 :: a3 :: a4 :: a5 :: a6 :: a7 :: d1 ::
    b0 :: b1 :: b2 :: b3 :: d2 :: v :: c1 :: c2 :: c3 :: d3 ::
    w :: e1 :: e2 :: e3 :: d4 :: f0 :: f1 :: f2 :: f3 :: f4 ::
    f5 :: f6 :: f7 :: f8 :: f9 :: f10 :: f11 :: [] =>
    ([a0, a1, a2, a3, a4, a5, a6, a7, b0, b1, b2, b3, c1, c2, c3,
      e1, e2, e3, f0, f1, f2, f3, f4, f5, f6, f7, f8, f9, f10, f11].all
        isHexCharCI)
    && (d1 == '-') && (d2 == '-') && (d3 == '-') && (d4 == '-')
    && isVerChar v && isVarChar w
  | _ => false

/-- Model of `stringify(arr)` from `src/index.js`: `none` models the
`TypeError` thrown when the rendered UUID fails `isValidUUID`. -/
def uuidStringify (b : List Nat) : Option String :=
  let u := uuidStringifyRaw b
  if isValidUUID u then some u else none

/-- Unicode replacement character U+FFFD, emitted by `TextDecoder` for
malformed UTF-8. -/
def replacementChar : Char := Char.ofNat 0xFFFD

/-- One step of WHATWG UTF-8 decoding: given a lead byte `b` and the
bytes after it, returns the decoded character (U+FFFD on malformed
input) and how many continuation bytes were consumed (a rejected byte
is consumed by nobody and is reprocessed as a fresh lead byte). -/
def utf8Step (b : Nat) (rest : List Nat) : Char × Nat :=
  if b < 0x80 then (Char.ofNat b, 0)
  else if b < 0xC2 then (replacementChar, 0)
  else if b < 0xE0 then
    match rest with
    | [] => (replacementChar, 0)
    | c :: _ =>
      if 0x80 ≤ c && c < 0xC0 then
        (Char.ofNat ((b - 0xC0) * 0x40 + (c - 0x80)), 1)
      else (replacementChar, 0)
  else if b < 0xF0 then
    match rest with
    | [] => (replacementChar, 0)
    | c :: r2 =>
      if (if b = 0xE0 then 0xA0 else 0x80) ≤ c &&
         c < (if b = 0xED then 0xA0 else 0xC0) then
        match r2 with
        | [] => (replacementChar, 1)
        | d :: _ =>
          if 0x80 ≤ d && d < 0xC0 then
            (Char.ofNat ((b - 0xE0) * 0x1000 + (c - 0x80) * 0x40 + (d - 0x80)), 2)
          else (replacementChar, 1)
      else (replacementChar, 0)
  else if b < 0xF5 then
    match rest with
    | [] => (replacementChar, 0)
    | c :: r2 =>
      if (if b = 0xF0 then 0x90 else 0x80) ≤ c &&
         c < (if b = 0xF4 then 0x90 else 0xC0) then
        match r2 with
        | [] => (replacementChar, 1)
        | d :: r3 =>
          if 0x80 ≤ d && d < 0xC0 then
            match r3 with
            | [] => (replacementChar, 2)
            | e :: _ =>
              if 0x80 ≤ e && e < 0xC0 then
                (Char.ofNat ((b - 0xF0) * 0x40000 + (c - 0x80) * 0x1000 +
                  (d - 0x80) * 0x40 + (e - 0x80)), 3)
              else (replacementChar, 2)
          else (replacementChar, 1)
      else (replacementChar, 0)
  else (replacementChar, 0)

/-- Fuel-indexed UTF-8 decoding loop; the fuel is an upper bound on the
number of remaining bytes, so the zero-fuel branch is unreachable when
started with `fuel = length`. -/
def utf8DecodeFuel : Nat → List Nat → List Char
  | _, [] => []
  | 0, _ :: _ => []
  | fuel + 1, b :: rest =>
    (utf8Step b rest).1 :: utf8DecodeFuel fuel (rest.drop (utf8Step b rest).2)

/-- Model of `TextDecoder().decode` (WHATWG UTF-8 decode with U+FFFD
replacement) over a byte list. -/
def utf8DecodeList (l : List Nat) : List Char :=
  utf8DecodeFuel l.length l

/-- String form of `TextDecoder().decode`. -/
def utf8Decode (bytes : List Nat) : String :=
  String.mk (utf8DecodeList bytes)

/-- JS `n.toString(16)` for a natural number: lowercase hex, no leading
zeros, `"0"` for zero. -/
def jsHexString (n : Nat) : String :=
  String.mk (Nat.toDigits 16 n)

/-- JS `n.toString()` (decimal) for a natural number. -/
def jsDecString (n : Nat) : String :=
  Nat.repr n

/-- Outcome of the `switch (addressType)` block of `ProcessProtocolHeader`:
`decodeThrown` models an out-of-bounds `DataView` read (IPv6 path or the
domain-length byte), `badType` the `default` branch, and `decoded` carries
`addressValue`, `addressValueIndex` and `addressLength`. -/
inductive AddrDecode where
  | decodeThrown
  | badType
  | decoded (value : String) (valueIndex : Nat) (len : Nat)
deriving DecidableEq, Repr

/-- Reads the eight big-endian 16-bit groups of an IPv6 address starting
at `i`; `none` when a `DataView.getUint16` would throw. -/
def readIpv6Groups (buf : List Nat) (i : Nat) : Nat → Option (List Nat)
  | 0 => some []
  | k + 1 =>
    match getUint16 buf i, readIpv6Groups buf (i + 2) k with
    | some g, some gs => some (g :: gs)
    | _, _ => none

/-- The `switch (addressType)` block of `ProcessProtocolHeader`
(`src/index.js`): IPv4 joins four bytes with dots, domain decodes a
length-prefixed UTF-8 slice, IPv6 joins eight hex groups with colons. -/
def decodeAddr (buf : List Nat) (portIndex : Nat) : Nat → AddrDecode
  | 1 =>
    .decoded
      (String.intercalate "."
        ((sliceBytes buf (portIndex + 3) (portIndex + 3 + 4)).map jsDecString))
      (portIndex + 3) 4
  | 2 =>
    match buf[portIndex + 3]? with
    | none => .decodeThrown
    | some len =>
      .decoded (utf8Decode (sliceBytes buf (portIndex + 4) (portIndex + 4 + len)))
        (portIndex + 4) len
  | 3 =>
    match readIpv6Groups buf (portIndex + 3) 8 with
    | none => .decodeThrown
    | some gs => .decoded (String.intercalate ":" (gs.map jsHexString)) (portIndex + 3) 16
  | _ => .badType

/-- Parsed VLESS request header, the `hasError: false` record returned by
`ProcessProtocolHeader`. -/
structure ProtocolHeader where
  addressRemote : String
  addressType : Nat
  portRemote : Nat
  rawDataIndex : Nat
  version : Nat
  isUDP : Bool
deriving DecidableEq, Repr

/-- Result of `ProcessProtocolHeader`: `thrown` models a JS exception
escaping the function (it rejects the promise and bypasses the
`hasError` protocol), `err` is the structured `{ hasError: true }`
result with its exact message. -/
inductive ParseResult where
  | thrown
  | err (msg : String)
  | ok (h : ProtocolHeader)
deriving DecidableEq, Repr

/-- Model of `ProcessProtocolHeader(protocolBuffer, env)` from
`src/index.js`, guard for guard in source order. -/
def ProcessProtocolHeader (buf : List Nat) (env : Env) : ParseResult :=
  if buf.length < 24 then .err "invalid data" else
  match uuidStringify (sliceBytes buf 1 17) with
  | none => .thrown
  | some uuid =>
    match env.users uuid with
    | none => .err "invalid or expired user"
    | some expOk =>
      if expOk = false then .err "invalid or expired user" else
      match buf[17]? with
      | none => .thrown
      | some optLength =>
        match buf[18 + optLength]? with
        | none => .thrown
        | some command =>
          if command ≠ 1 ∧ command ≠ 2 then
            .err ("command " ++ toString command ++ " is not supported")
          else
            match getUint16 buf (18 + optLength + 1) with
            | none => .thrown
            | some portRemote =>
              match buf[18 + optLength + 1 + 2]? with
              | none => .thrown
              | some addressType =>
                match decodeAddr buf (18 + optLength + 1) addressType with
                | .decodeThrown => .thrown
                | .badType => .err ("invalid addressType: " ++ toString addressType)
                | .decoded value valueIndex len =>
                  if value = "" then
                    .err ("addressValue is empty, addressType is " ++
                      toString addressType)
                  else
                    .ok { addressRemote := value, addressType := addressType,
                          portRemote := portRemote,
                          rawDataIndex := valueIndex + len,
                          version := (buf[0]?).getD 0,
                          isUDP := command == 2 }

/-- Action taken by the first-chunk branch of the `WritableStream.write`
callback in `ProtocolOverWSHandler` (`src/index.js`): a structured
`controller.error(message)` abort, an abort through a thrown exception
rejecting the pipeline, the DNS pipeline (UDP on port 53), or a TCP
dial via `HandleTCPOutBound`. -/
inductive FirstChunkAction where
  | abort (msg : String)
  | abortThrown
  | dns (version : Nat) (rawClientData : List Nat)
  | dial (addressType : Nat) (addressRemote : String) (portRemote : Nat)
      (rawClientData : List Nat) (version : Nat)
deriving DecidableEq, Repr

/-- First-chunk logic of `ProtocolOverWSHandler`: parse the header, then
branch on error / UDP-port-53 / TCP, slicing the initial payload at
`rawDataIndex`. -/
def handleFirstChunk (chunk : List Nat) (env : Env) : FirstChunkAction :=
  match ProcessProtocolHeader chunk env with
  | .thrown => .abortThrown
  | .err m => .abort m
  | .ok h =>
    if h.isUDP then
      if h.portRemote = 53 then .dns h.version (chunk.drop h.rawDataIndex)
      else .abort "UDP proxy only for DNS (port 53)"
    else .dial h.addressType h.addressRemote h.portRemote (chunk.drop h.rawDataIndex) h.version

/-- Number of outbound TCP dials started directly by the first-chunk
handler (the primary `connectAndWrite` of `HandleTCPOutBound`). -/
def actionDialCount : FirstChunkAction → Nat
  | .dial _ _ _ _ _ => 1
  | _ => 0

/-- Inner `remoteSocket.readable.pipeTo(WritableStream)` loop of
`RemoteSocketToWS`: for each remote chunk, abort if the WebSocket is no
longer open (modelled by a budget of remaining successful readyState
checks), otherwise send `protocolResponseHeader ‖ chunk` the first time
and the bare chunk afterwards.  Returns the frames sent and the
remaining budget. -/
def pipeRemoteChunks : List (List Nat) → Option (List Nat) → Nat → List (List Nat) × Nat
  | [], _, budget => ([], budget)
  | _ :: _, _, 0 => ([], 0)
  | c :: cs, hdr, Nat.succ budget =>
    let rest := pipeRemoteChunks cs none budget
    ((hdr.getD [] ++ c) :: rest.1, rest.2)

/-- The retry argument of `RemoteSocketToWS`: `noRetry` models the
`null` passed on the retry path (line 1115 of `src/index.js`), `thunk`
carries the chunk sequence the retried remote socket would produce. -/
inductive RetryThunk where
  | noRetry
  | thunk (chunks : List (List Nat))
deriving DecidableEq, Repr

/-- Observable outcome of a `RemoteSocketToWS` call: WebSocket frames
sent to the client, number of retry invocations, remaining readyState
budget. -/
structure PipeRun where
  frames : List (List Nat)
  retries : Nat
  budgetLeft : Nat
deriving DecidableEq, Repr

/-- Model of `RemoteSocketToWS(tcpSocket, ws, header, null, log)`: the
pipe loop with no retry thunk, as started by `retry()`. -/
def RemoteSocketToWSNull (chunks : List (List Nat)) (hdr : List Nat) (budget : Nat) :
    PipeRun :=
  let p := pipeRemoteChunks chunks (some hdr) budget
  ⟨p.1, 0, p.2⟩

/-- Model of `RemoteSocketToWS(tcpSocket, ws, header, retry, log)`:
after the pipe loop settles, if `hasIncomingData` is still false (no
frame was sent) and a retry thunk is present, `retry()` runs, which
dials again and restarts the pipe with a `null` retry thunk. -/
def RemoteSocketToWS (chunks : List (List Nat)) (hdr : List Nat) :
    RetryThunk → Nat → PipeRun
  | .noRetry, budget => RemoteSocketToWSNull chunks hdr budget
  | .thunk retryChunks, budget =>
    let p := pipeRemoteChunks chunks (some hdr) budget
    if p.1.isEmpty then
      let r := RemoteSocketToWSNull retryChunks hdr p.2
      ⟨p.1 ++ r.frames, 1 + r.retries, r.budgetLeft⟩
    else ⟨p.1, 0, p.2⟩

/-- Chunks actually delivered to the client during a TCP session, before
header prepending: the primary stream's chunks while the WebSocket stays
open, or the retry stream's when the primary delivered nothing. -/
def tcpDelivered (primary : List (List Nat)) (budget : Nat) :
    RetryThunk → List (List Nat)
  | .noRetry => primary.take budget
  | .thunk retryChunks =>
    if primary.take budget = [] then retryChunks.take budget
    else primary.take budget

/-- Frame rendering of the one-shot response header: the header bytes
are concatenated onto the first delivered chunk only. -/
def renderFrames (hdr : List Nat) : List (List Nat) → List (List Nat)
  | [] => []
  | c :: cs => (hdr ++ c) :: cs

/-- Big-endian length bytes `[(size >> 8) & 0xff, size & 0xff]` computed
by `createDnsPipeline` for each DoH reply. -/
def dohLenBytes (size : Nat) : List Nat :=
  [size / 256 % 256, size % 256]

/-- The DoH URL hard-coded in `createDnsPipeline`. -/
def dohURL : String := "https://1.1.1.1/dns-query"

/-- The content type of every DoH POST in `createDnsPipeline`. -/
def dohContentType : String := "application/dns-message"

/-- One HTTP POST issued by the DNS pipeline. -/
structure DohPost where
  url : String
  contentType : String
  body : List Nat
deriving DecidableEq, Repr

/-- Splitter of `createDnsPipeline`'s TransformStream: peels 16-bit
big-endian length-prefixed DNS packets off a chunk.  `none` models the
`RangeError` thrown by `getUint16` when fewer than two bytes remain. -/
def splitDnsChunkFuel : Nat → List Nat → Option (List (List Nat))
  | _, [] => some []
  | _, [_] => none
  | 0, _ :: _ :: _ => none
  | fuel + 1, b0 :: b1 :: rest =>
    let len := b0 * 256 + b1
    match splitDnsChunkFuel fuel (rest.drop len) with
    | some qs => some (rest.take len :: qs)
    | none => none

/-- Wrapper starting the splitter with enough fuel (two or more bytes
are consumed per step, so the zero-fuel branch is unreachable). -/
def splitDnsChunk (l : List Nat) : Option (List (List Nat)) :=
  splitDnsChunkFuel l.length l

/-- Outcome of the DoH writable loop over a list of already-split
queries: frames sent to the client, final `isHeaderSent` flag, POSTs
issued. -/
structure DnsRun where
  frames : List (List Nat)
  headerSent : Bool
  posts : List DohPost
deriving DecidableEq, Repr

/-- The writable side of `createDnsPipeline`: each query is POSTed to
the DoH resolver (`resolver q = none` models a failed `fetch`, which is
logged and skipped); on success, if the WebSocket is open the reply is
framed with its 16-bit big-endian length, the VLESS response header
being prepended to the first such frame only. -/
def processDnsQueries (resolver : List Nat → Option (List Nat)) (hdr : List Nat)
    (wsOpen : Bool) : List (List Nat) → Bool → DnsRun
  | [], sent => ⟨[], sent, []⟩
  | q :: qs, sent =>
    match resolver q with
    | none =>
      let r := processDnsQueries resolver hdr wsOpen qs sent
      ⟨r.frames, r.headerSent, ⟨dohURL, dohContentType, q⟩ :: r.posts⟩
    | some reply =>
      if wsOpen then
        let frame0 := dohLenBytes reply.length ++ reply
        let frame := if sent then frame0 else hdr ++ frame0
        let r := processDnsQueries resolver hdr wsOpen qs true
        ⟨frame :: r.frames, r.headerSent, ⟨dohURL, dohContentType, q⟩ :: r.posts⟩
      else
        let r := processDnsQueries resolver hdr wsOpen qs sent
        ⟨r.frames, r.headerSent, ⟨dohURL, dohContentType, q⟩ :: r.posts⟩

/-- Spec-side rendering of the DNS replies with their 16-bit big-endian
length prefixes, without any response header. -/
def plainDnsFrames (resolver : List Nat → Option (List Nat)) (qs : List (List Nat)) :
    List (List Nat) :=
  qs.filterMap (fun q => (resolver q).map (fun r => dohLenBytes r.length ++ r))

/-- Processing of one client chunk by the DNS pipeline starting from
header-sent state `sent`: split, resolve, frame.  `none` models the
splitter throwing. -/
def dnsChunkRun (resolver : List Nat → Option (List Nat)) (hdr : List Nat)
    (wsOpen : Bool) (chunk : List Nat) (sent : Bool) : Option DnsRun :=
  (splitDnsChunk chunk).map (fun qs => processDnsQueries resolver hdr wsOpen qs sent)

/-- Frames a whole session sends to the client, as a function of the
first-chunk action: aborts send nothing, DNS mode runs the pipeline on
the initial raw payload, TCP mode runs the duplex pipe (with its retry
thunk) over the remote chunk sequence. -/
def actionClientFrames (a : FirstChunkAction) (primary retryChunks : List (List Nat))
    (budget : Nat) (resolver : List Nat → Option (List Nat)) : List (List Nat) :=
  match a with
  | .abort _ => []
  | .abortThrown => []
  | .dns ver raw =>
    ((dnsChunkRun resolver [ver, 0] true raw false).map DnsRun.frames).getD []
  | .dial _ _ _ _ ver =>
    (RemoteSocketToWS primary [ver, 0] (.thunk retryChunks) budget).frames

/-- Splits a character list on a separator character, JS
`String.prototype.split` style (an empty string yields `[""]`). -/
def splitCharsOn (sep : Char) : List Char → List Char → List (List Char)
  | [], acc => [acc.reverse]
  | c :: cs, acc =>
    if c = sep then acc.reverse :: splitCharsOn sep cs []
    else splitCharsOn sep cs (c :: acc)

/-- JS `s.split(sep)` for a single-character separator. -/
def jsSplit (s : String) (sep : Char) : List String :=
  (splitCharsOn sep s.data []).map String.mk

/-- Numeric value of a digit string. -/
def decDigitsVal (cs : List Char) : Nat :=
  cs.foldl (fun acc c => acc * 10 + (c.toNat - 48)) 0

/-- JS `Number(s)` coerced through a `Uint8Array` slot: decimal strings
convert, anything else (including the empty string's 0) lands mod 256,
`NaN` becomes 0. -/
def jsNumberByte (s : String) : Nat :=
  if s = "" then 0
  else if s.data.all Char.isDigit then decDigitsVal s.data % 256
  else 0

/-- Value of one hex digit, lowercase or uppercase. -/
def hexDigitVal (c : Char) : Option Nat :=
  if 48 ≤ c.toNat && c.toNat ≤ 57 then some (c.toNat - 48)
  else if 97 ≤ c.toNat && c.toNat ≤ 102 then some (c.toNat - 87)
  else if 65 ≤ c.toNat && c.toNat ≤ 70 then some (c.toNat - 55)
  else none

/-- JS `parseInt(s, 16)` coerced through a `Uint8Array` slot: parses the
maximal leading run of hex digits; no leading hex digit gives `NaN`,
which the `Uint8Array` turns into 0; other values land mod 256. -/
def jsParseIntHexByte (s : String) : Nat :=
  match s.data.takeWhile (fun c => (hexDigitVal c).isSome) with
  | [] => 0
  | ds => (ds.foldl (fun acc c => acc * 16 + (hexDigitVal c).getD 0) 0) % 256

/-- UTF-8 encoding of one character (`TextEncoder` semantics). -/
def utf8EncodeChar (c : Char) : List Nat :=
  let n := c.toNat
  if n < 0x80 then [n]
  else if n < 0x800 then [0xC0 + n / 0x40, 0x80 + n % 0x40]
  else if n < 0x10000 then
    [0xE0 + n / 0x1000, 0x80 + n / 0x40 % 0x40, 0x80 + n % 0x40]
  else
    [0xF0 + n / 0x40000, 0x80 + n / 0x1000 % 0x40, 0x80 + n / 0x40 % 0x40,
     0x80 + n % 0x40]

/-- Model of `new TextEncoder().encode(s)`. -/
def utf8Encode (s : String) : List Nat :=
  (s.data.map utf8EncodeChar).flatten

/-- JS `s.length`: the number of UTF-16 code units of the string. -/
def jsStrLen (s : String) : Nat :=
  s.data.foldl (fun n c => n + if c.toNat < 0x10000 then 1 else 2) 0

/-- The `DSTADDR` bytes built by `socks5Connect` (`src/index.js`) for
the SOCKS5 CONNECT request; `none` models the thrown
`Invalid addressType` error.  IPv4 re-parses the dotted string with
`Number`, domain uses the JS string length and UTF-8 bytes, IPv6 splits
each colon group's hex string into its first two characters and the
remainder via `parseInt(x, 16)`. -/
def socks5DstAddr (addressType : Nat) (addressRemote : String) : Option (List Nat) :=
  match addressType with
  | 1 => some (1 :: (jsSplit addressRemote '.').map jsNumberByte)
  | 2 => some (3 :: jsStrLen addressRemote % 256 :: utf8Encode addressRemote)
  | 3 =>
    some (4 :: ((jsSplit addressRemote ':').map
      (fun x => [jsParseIntHexByte (String.mk (x.data.take 2)),
                 jsParseIntHexByte (String.mk (x.data.drop 2))])).flatten)
  | _ => none

/-- The complete SOCKS5 CONNECT request `[5, 1, 0, DSTADDR, port_hi,
port_lo]` written by `socks5Connect`. -/
def socks5Request (addressType : Nat) (addressRemote : String) (portRemote : Nat) :
    Option (List Nat) :=
  (socks5DstAddr addressType addressRemote).map
    (fun dst => [5, 1, 0] ++ dst ++ [portRemote / 256 % 256, portRemote % 256])

/-- Spec-side SOCKS5 destination: the VLESS address type mirrored with
raw bytes (ATYP=1 ‖ four bytes, ATYP=3 ‖ len ‖ UTF-8 bytes, ATYP=4 ‖
sixteen bytes). -/
def specSocks5DstAddrIpv6 (raw16 : List Nat) : List Nat :=
  4 :: raw16

/-- Fields of the per-request config relevant to the outbound dispatcher
(`requestConfig` in the worker's `fetch`): `enableSocks` is
`!!env.SOCKS5`, `socks5Relay` is `SOCKS5_RELAY === 'true'`, `proxyIP` /
`proxyPort` come from splitting the selected fallback `host:port`. -/
structure WSConfig where
  enableSocks : Bool
  socks5Relay : Bool
  proxyIP : String
  proxyPort : String
deriving DecidableEq, Repr

/-- How an outbound connection is opened. -/
inductive DialVia where
  | direct
  | socks5
deriving DecidableEq, Repr

/-- A JS port value: `config.proxyPort` is a string, `portRemote` a
number; `connect` accepts either. -/
inductive JsPort where
  | str (s : String)
  | num (n : Nat)
deriving DecidableEq, Repr

/-- Destination and transport chosen by one `connectAndWrite(address,
port, socks)` call of `HandleTCPOutBound`: `socks5Relay` forces the
SOCKS5 dialer regardless of the `socks` flag. -/
structure DialPlan where
  via : DialVia
  host : String
  port : JsPort
deriving DecidableEq, Repr

/-- Model of `connectAndWrite` from `HandleTCPOutBound` (`src/index.js`):
the dial decision only (the selected transport and destination). -/
def connectAndWritePlan (cfg : WSConfig) (address : String) (port : JsPort)
    (socks : Bool) : DialPlan :=
  if cfg.socks5Relay then ⟨.socks5, address, port⟩
  else if socks then ⟨.socks5, address, port⟩
  else ⟨.direct, address, port⟩

/-- Model of `retry()` from `HandleTCPOutBound`: with `enableSocks` the
original destination through the SOCKS5 dialer, otherwise
`config.proxyIP || addressRemote` and `config.proxyPort || portRemote`
(JS falsiness: the empty string falls back). -/
def retryPlan (cfg : WSConfig) (addressRemote : String) (portRemote : Nat) : DialPlan :=
  if cfg.enableSocks then connectAndWritePlan cfg addressRemote (.num portRemote) true
  else
    connectAndWritePlan cfg
      (if cfg.proxyIP ≠ "" then cfg.proxyIP else addressRemote)
      (if cfg.proxyPort ≠ "" then .str cfg.proxyPort else .num portRemote)
      false

/-- ASCII whitespace stripped by WHATWG forgiving-base64. -/
def isB64Space (c : Char) : Bool :=
  c.toNat == 32 || c.toNat == 9 || c.toNat == 10 || c.toNat == 12 ||
  c.toNat == 13

/-- Value of one base64 alphabet character. -/
def b64CharVal (c : Char) : Option Nat :=
  if 65 ≤ c.toNat && c.toNat ≤ 90 then some (c.toNat - 65)
  else if 97 ≤ c.toNat && c.toNat ≤ 122 then some (c.toNat - 71)
  else if 48 ≤ c.toNat && c.toNat ≤ 57 then some (c.toNat + 4)
  else if c == '+' then some 62
  else if c == '/' then some 63
  else none

/-- Removes up to two trailing `=` when the length is a multiple of
four (WHATWG forgiving-base64 step 2). -/
def stripB64Pad (cs : List Char) : List Char :=
  if cs.length % 4 = 0 then
    match cs.reverse with
    | '=' :: '=' :: r => r.reverse
    | '=' :: r => r.reverse
    | _ => cs
  else cs

/-- Packs decoded sextets into bytes: complete groups of four give three
bytes, a trailing pair gives one byte, a trailing triple two bytes
(excess bits discarded). -/
def b64SextetsToBytes : List Nat → List Nat
  | a :: b :: c :: d :: rest =>
    (a * 4 + b / 16) :: (b % 16 * 16 + c / 4) :: (c % 4 * 64 + d) ::
      b64SextetsToBytes rest
  | [a, b] => [a * 4 + b / 16]
  | [a, b, c] => [a * 4 + b / 16, b % 16 * 16 + c / 4]
  | _ => []

/-- Model of `atob` (WHATWG forgiving-base64 decode) composed with the
`charCodeAt` loop of `base64ToArrayBuffer`: yields the decoded bytes, or
`none` for the `InvalidCharacterError` that `atob` throws. -/
def atobDecode (s : String) : Option (List Nat) :=
  let cs := stripB64Pad (s.data.filter (fun c => !isB64Space c))
  if cs.length % 4 = 1 then none
  else (cs.mapM b64CharVal).map b64SextetsToBytes

/-- Result record of `base64ToArrayBuffer`. -/
structure EarlyDataResult where
  earlyData : Option (List Nat)
  error : Option String
deriving DecidableEq, Repr

/-- Model of `base64ToArrayBuffer(base64Str)` from `src/index.js`: a
falsy (empty) header short-circuits to `{ earlyData: null, error:
null }`; otherwise `-`/`_` are mapped to `+`/`/` and the string is
base64-decoded, a decoding failure being caught and returned as the
error. -/
def base64ToArrayBuffer (s : String) : EarlyDataResult :=
  if s = "" then ⟨none, none⟩
  else
    match atobDecode (String.mk (s.data.map
        (fun c => if c = '-' then '+' else if c = '_' then '/' else c))) with
    | some bytes => ⟨some bytes, none⟩
    | none => ⟨none, some "InvalidCharacterError"⟩

/-- Model of `MakeReadableWebSocketStream`'s `start` callback: the
ingress chunk sequence.  A decode error errors the stream immediately;
otherwise the early data, when present, is enqueued ahead of every
WebSocket message. -/
def MakeReadableWebSocketStream (earlyDataHeader : String)
    (wsMessages : List (List Nat)) : Except String (List (List Nat)) :=
  match base64ToArrayBuffer earlyDataHeader with
  | ⟨_, some e⟩ => .error e
  | ⟨some d, none⟩ => .ok (d :: wsMessages)
  | ⟨none, none⟩ => .ok wsMessages

/-- Demo user store accepting exactly the UUID of spec scenario 1,
unexpired. -/
def demoEnv : Env :=
  ⟨fun s => if s = "10e894da-61b1-4998-ac2b-e9ccb6af9d30" then some true else none⟩

/-- The sixteen raw user-id bytes of spec scenario 1. -/
def demoUuidBytes : List Nat :=
  [0x10, 0xe8, 0x94, 0xda, 0x61, 0xb1, 0x49, 0x98,
   0xac, 0x2b, 0xe9, 0xcc, 0xb6, 0xaf, 0x9d, 0x30]

/-- Scenario 1 first frame: TCP CONNECT to 1.2.3.4:443 with payload
`"GET"`. -/
def tcpFrame : List Nat :=
  [0x00] ++ demoUuidBytes ++ [0x00, 0x01, 0x01, 0xBB, 0x01, 1, 2, 3, 4] ++ [71, 69, 84]

/-- Scenario 2 first frame: TCP CONNECT to
`[2001:db8::1]:443`, empty payload. -/
def ipv6Frame : List Nat :=
  [0x00] ++ demoUuidBytes ++
  [0x00, 0x01, 0x01, 0xBB, 0x03,
   0x20, 0x01, 0x0d, 0xb8, 0, 0, 0, 0, 0, 0, 0, 0, 0, 0, 0, 0x01]

/-- Domain-address first frame: TCP CONNECT to `example.com:80`, empty
payload. -/
def domainFrame : List Nat :=
  [0x00] ++ demoUuidBytes ++
  [0x00, 0x01, 0x00, 0x50, 0x02, 11,
   101, 120, 97, 109, 112, 108, 101, 46, 99, 111, 109]

/-- The pipe loop with no header sends the delivered chunks verbatim. -/
theorem pipeRemoteChunks_none_frames (chunks : List (List Nat)) (b : Nat) :
    (pipeRemoteChunks chunks none b).1 = chunks.take b := by
  induction chunks generalizing b with
  | nil => simp [pipeRemoteChunks]
  | cons c cs ih =>
    cases b with
    | zero => simp [pipeRemoteChunks]
    | succ b => simp [pipeRemoteChunks, ih]

/-- The pipe loop with a pending header prepends it to the first
delivered chunk only. -/
theorem pipeRemoteChunks_some_frames (chunks : List (List Nat)) (hdr : List Nat)
    (b : Nat) :
    (pipeRemoteChunks chunks (some hdr) b).1 = renderFrames hdr (chunks.take b) := by
  cases chunks with
  | nil => simp [pipeRemoteChunks, renderFrames]
  | cons c cs =>
    cases b with
    | zero => simp [pipeRemoteChunks, renderFrames]
    | succ b => simp [pipeRemoteChunks, renderFrames, pipeRemoteChunks_none_frames]

/-- When the pipe delivers nothing, the readyState budget is untouched. -/
theorem pipeRemoteChunks_budget_of_take_nil (chunks : List (List Nat))
    (hdr : Option (List Nat)) (b : Nat) (h : chunks.take b = []) :
    (pipeRemoteChunks chunks hdr b).2 = b := by
  cases chunks with
  | nil => simp [pipeRemoteChunks]
  | cons c cs =>
    cases b with
    | zero => simp [pipeRemoteChunks]
    | succ b => simp at h

/-- With a closed WebSocket the DNS loop sends nothing. -/
theorem processDnsQueries_closed_frames (resolver : List Nat → Option (List Nat))
    (hdr : List Nat) (qs : List (List Nat)) (sent : Bool) :
    (processDnsQueries resolver hdr false qs sent).frames = [] := by
  induction qs generalizing sent with
  | nil => simp [processDnsQueries]
  | cons q qs ih => cases hr : resolver q <;> simp [processDnsQueries, hr, ih]

/-- Once the header is marked sent, every DNS frame is the bare
length-prefixed reply. -/
theorem processDnsQueries_sent_frames (resolver : List Nat → Option (List Nat))
    (hdr : List Nat) (qs : List (List Nat)) :
    (processDnsQueries resolver hdr true qs true).frames = plainDnsFrames resolver qs := by
  induction qs with
  | nil => simp [processDnsQueries, plainDnsFrames]
  | cons q qs ih =>
    cases hr : resolver q <;>
      simp [processDnsQueries, hr, ih, plainDnsFrames, List.filterMap_cons]

/-- Fresh DNS pipeline: the response header lands on exactly the first
successful reply frame. -/
theorem processDnsQueries_fresh_frames (resolver : List Nat → Option (List Nat))
    (hdr : List Nat) (qs : List (List Nat)) :
    (processDnsQueries resolver hdr true qs false).frames =
      renderFrames hdr (plainDnsFrames resolver qs) := by
  induction qs with
  | nil => simp [processDnsQueries, plainDnsFrames, renderFrames]
  | cons q qs ih =>
    cases hr : resolver q
    · simpa [processDnsQueries, hr, plainDnsFrames, List.filterMap_cons] using ih
    · simp [processDnsQueries, hr, plainDnsFrames, List.filterMap_cons,
        processDnsQueries_sent_frames, renderFrames]

/-- Every dequeued DNS query is POSTed to the DoH endpoint with the
`application/dns-message` content type, even when the fetch fails or the
WebSocket is closed. -/
theorem processDnsQueries_posts (resolver : List Nat → Option (List Nat))
    (hdr : List Nat) (wsOpen : Bool) (qs : List (List Nat)) (sent : Bool) :
    (processDnsQueries resolver hdr wsOpen qs sent).posts =
      qs.map (fun q => ⟨dohURL, dohContentType, q⟩) := by
  induction qs generalizing sent with
  | nil => simp [processDnsQueries]
  | cons q qs ih =>
    cases hr : resolver q <;> cases wsOpen <;> simp [processDnsQueries, hr, ih]

/-- C1, literal-reading counterexample: when a remote payload chunk
itself begins with the response-header bytes, two outbound frames start
with those two bytes, so "exactly one WebSocket frame starts with those
two bytes" fails. -/
theorem vless_response_header_once_cex :
    ((RemoteSocketToWS [[5], [0, 0, 7]] [0, 0] .noRetry 10).frames.countP
      (fun f => f.take 2 == [0, 0])) = 2 ∧
    (RemoteSocketToWS [[5], [0, 0, 7]] [0, 0] .noRetry 10).frames =
      [[0, 0, 5], [0, 0, 7]] := by decide

/-- C1 (amended): in every session and for every remote chunk sequence
(TCP mode with or without a retry, and DNS mode), the two-byte VLESS
response header is concatenated onto exactly the first chunk delivered
to the client, and every other outbound frame is the pure payload
chunk. -/
theorem vless_response_header_once_amended :
    (∀ (chunks : List (List Nat)) (hdr : List Nat) (retry : RetryThunk) (budget : Nat),
      (RemoteSocketToWS chunks hdr retry budget).frames =
        renderFrames hdr (tcpDelivered chunks budget retry)) ∧
    (∀ (resolver : List Nat → Option (List Nat)) (hdr : List Nat) (qs : List (List Nat)),
      (processDnsQueries resolver hdr true qs false).frames =
        renderFrames hdr (plainDnsFrames resolver qs)) := by
  constructor
  · intro chunks hdr retry budget
    cases retry with
    | noRetry =>
      simp [RemoteSocketToWS, RemoteSocketToWSNull, tcpDelivered,
        pipeRemoteChunks_some_frames]
    | thunk rc =>
      by_cases h : chunks.take budget = []
      · have hb := pipeRemoteChunks_budget_of_take_nil chunks (some hdr) budget h
        simp [RemoteSocketToWS, RemoteSocketToWSNull, tcpDelivered,
          pipeRemoteChunks_some_frames, h, hb, renderFrames]
      · have : renderFrames hdr (chunks.take budget) ≠ [] := by
          cases hc : chunks.take budget with
          | nil => exact absurd hc h
          | cons a l => simp [renderFrames]
        simp [RemoteSocketToWS, RemoteSocketToWSNull, tcpDelivered,
          pipeRemoteChunks_some_frames, h, List.isEmpty_iff, this]
  · intro resolver hdr qs
    exact processDnsQueries_fresh_frames resolver hdr qs

/-- C2: the retry thunk of `RemoteSocketToWS` runs at most once per
session, only when no chunk was ever delivered by the primary stream
(`hasIncomingData` still false), and the pipe it starts carries a null
retry thunk and hence contributes zero further retries. -/
theorem retry_invoked_at_most_once (chunks : List (List Nat)) (hdr : List Nat)
    (retry : RetryThunk) (budget : Nat) :
    (RemoteSocketToWS chunks hdr retry budget).retries ≤ 1 ∧
    (1 ≤ (RemoteSocketToWS chunks hdr retry budget).retries →
      chunks.take budget = [] ∧ retry ≠ .noRetry) ∧
    (∀ (rc : List (List Nat)) (b2 : Nat), (RemoteSocketToWSNull rc hdr b2).retries = 0) := by
  refine ⟨?_, ?_, fun rc b2 => rfl⟩ <;>
  · cases retry with
    | noRetry => simp [RemoteSocketToWS, RemoteSocketToWSNull]
    | thunk rc =>
      by_cases h : (pipeRemoteChunks chunks (some hdr) budget).1.isEmpty <;>
        simp_all [RemoteSocketToWS, RemoteSocketToWSNull,
          pipeRemoteChunks_some_frames, List.isEmpty_iff] <;>
      · cases hc : chunks.take budget with
        | nil => simp_all [renderFrames]
        | cons a l => simp_all [renderFrames]

/-- C2 witness: an idle primary (no chunks) with an available retry
thunk triggers exactly one retry. -/
theorem retry_invoked_at_most_once_witness :
    (RemoteSocketToWS [] [0, 0] (.thunk [[7], [8]]) 5).retries ≤ 1 ∧
    (([] : List (List Nat)).take 5 = [] ∧ RetryThunk.thunk [[7], [8]] ≠ .noRetry) ∧
    (RemoteSocketToWSNull [[9]] [0, 0] 5).retries = 0 :=
  ⟨(retry_invoked_at_most_once [] [0, 0] (.thunk [[7], [8]]) 5).1,
   (retry_invoked_at_most_once [] [0, 0] (.thunk [[7], [8]]) 5).2.1 (by decide),
   (retry_invoked_at_most_once [] [0, 0] (.thunk [[7], [8]]) 5).2.2 [[9]] 5⟩

/-- C5, literal-reading counterexample: with `SOCKS5_RELAY` set but
`enable-socks` unset, the retry dials the fallback host through the
SOCKS5 dialer, not directly. -/
theorem retry_destination_cex :
    (retryPlan ⟨false, true, "fallback.example", "443"⟩ "orig.example" 8080).via =
      .socks5 ∧
    retryPlan ⟨false, true, "fallback.example", "443"⟩ "orig.example" 8080 ≠
      ⟨.direct, "fallback.example", .str "443"⟩ := by decide

/-- C5 (amended): the retry destination is the original
`(addressRemote, portRemote)` through SOCKS5 when `enable-socks` is
set, and the configured fallback host/port (falling back to the
original destination when the configured value is empty) otherwise —
dialled directly only when `socks5-relay-all` is also unset, and through
the SOCKS5 dialer when it is set. -/
theorem retry_destination_amended (cfg : WSConfig) (addressRemote : String)
    (portRemote : Nat) :
    (cfg.enableSocks = true →
      retryPlan cfg addressRemote portRemote =
        ⟨.socks5, addressRemote, .num portRemote⟩) ∧
    (cfg.enableSocks = false → cfg.socks5Relay = false →
      retryPlan cfg addressRemote portRemote =
        ⟨.direct, if cfg.proxyIP ≠ "" then cfg.proxyIP else addressRemote,
          if cfg.proxyPort ≠ "" then .str cfg.proxyPort else .num portRemote⟩) ∧
    (cfg.enableSocks = false → cfg.socks5Relay = true →
      retryPlan cfg addressRemote portRemote =
        ⟨.socks5, if cfg.proxyIP ≠ "" then cfg.proxyIP else addressRemote,
          if cfg.proxyPort ≠ "" then .str cfg.proxyPort else .num portRemote⟩) := by
  refine ⟨fun h1 => ?_, fun h1 h2 => ?_, fun h1 h2 => ?_⟩ <;>
    simp_all [retryPlan, connectAndWritePlan]

/-- C5 witness: with neither SOCKS5 option set and a configured
fallback, the retry dials the fallback directly. -/
theorem retry_destination_amended_witness :
    retryPlan ⟨false, false, "fallback.example", "443"⟩ "orig.example" 8080 =
      ⟨.direct, "fallback.example", .str "443"⟩ :=
  ((retry_destination_amended ⟨false, false, "fallback.example", "443"⟩
    "orig.example" 8080).2.1 rfl rfl).trans (by decide)

/-- C6 (code bug): for the IPv6 destination of spec scenario 2 the
SOCKS5 `DSTADDR` emitted by `socks5Connect` is not ATYP=4 followed by
the sixteen raw address bytes: the group `db8` is re-encoded as
`[0xdb, 0x08]` instead of `[0x0d, 0xb8]` and the group `1` as
`[0x01, 0x00]` instead of `[0x00, 0x01]`, because the code splits each
group's hex string after its first two characters.  The parse of the
scenario-2 frame shows the input is reachable. -/
theorem socks5_ipv6_dstaddr_bug :
    ProcessProtocolHeader ipv6Frame demoEnv =
      .ok { addressRemote := "2001:db8:0:0:0:0:0:1", addressType := 3,
            portRemote := 443, rawDataIndex := 38, version := 0, isUDP := false } ∧
    socks5DstAddr 3 "2001:db8:0:0:0:0:0:1" =
      some [4, 0x20, 0x01, 0xdb, 0x08, 0, 0, 0, 0, 0, 0, 0, 0, 0, 0, 1, 0] ∧
    socks5DstAddr 3 "2001:db8:0:0:0:0:0:1" ≠
      some (specSocks5DstAddrIpv6
        [0x20, 0x01, 0x0d, 0xb8, 0, 0, 0, 0, 0, 0, 0, 0, 0, 0, 0, 1]) := by decide

/-- The 16-bit big-endian length framing of one DNS packet as produced
by a well-formed client. -/
def encodeDnsPacket (p : List Nat) : List Nat :=
  p.length / 256 :: p.length % 256 :: p

/-- Fuel-generalized splitting of a well-formed concatenation of
length-prefixed packets: any sufficient fuel recovers exactly the
packets. -/
theorem splitDnsChunkFuel_encode (packets : List (List Nat)) :
    ∀ fuel, ((packets.map encodeDnsPacket).flatten).length ≤ fuel →
      splitDnsChunkFuel fuel ((packets.map encodeDnsPacket).flatten) = some packets := by
  induction packets with
  | nil => intro fuel _; simp [splitDnsChunkFuel]
  | cons p ps ih =>
    intro fuel hfuel
    simp only [List.map_cons, List.flatten_cons, encodeDnsPacket, List.cons_append] at hfuel ⊢
    cases fuel with
    | zero => simp [List.length_append] at hfuel
    | succ fuel =>
      have hlen : p.length / 256 * 256 + p.length % 256 = p.length := by omega
      have hrest : ((ps.map encodeDnsPacket).flatten).length ≤ fuel := by
        simp [List.length_append] at hfuel ⊢; omega
      simp only [splitDnsChunkFuel, hlen]
      rw [List.take_left, List.drop_left, ih fuel hrest]

/-- Splitting a well-formed concatenation of length-prefixed packets
recovers exactly the packets. -/
theorem splitDnsChunk_encode (packets : List (List Nat)) :
    splitDnsChunk ((packets.map encodeDnsPacket).flatten) = some packets :=
  splitDnsChunkFuel_encode packets _ le_rfl

/-- C8, literal-reading counterexample: on a fresh DNS pipeline the
first reply frame is the response header followed by the
length-prefixed body, not the bare length-prefixed body. -/
theorem dns_framing_cex :
    dnsChunkRun (fun _ => some [171]) [0, 0] true [0, 1, 7] false =
      some ⟨[[0, 0, 0, 1, 171]], true, [⟨dohURL, dohContentType, [7]⟩]⟩ ∧
    ((dnsChunkRun (fun _ => some [171]) [0, 0] true [0, 1, 7] false).map
      DnsRun.frames) ≠ some [[0, 1, 171]] := by decide

/-- C8 (amended): any client chunk that is a concatenation of 16-bit
big-endian length-prefixed DNS queries is split into exactly those
queries, each query is POSTed independently to the DoH URL with content
type `application/dns-message`, and each reply is emitted as a single
WebSocket frame of 16-bit big-endian length prefix followed by the
reply body — except that the first successful reply frame of a session
is additionally prefixed by the two-byte response header. -/
theorem dns_framing_amended (resolver : List Nat → Option (List Nat))
    (packets : List (List Nat)) (hdr : List Nat)
    (hb : ∀ p ∈ packets, p.length < 65536) :
    splitDnsChunk ((packets.map encodeDnsPacket).flatten) = some packets ∧
    (processDnsQueries resolver hdr true packets false).posts =
      packets.map (fun q => ⟨dohURL, dohContentType, q⟩) ∧
    (processDnsQueries resolver hdr true packets true).frames =
      plainDnsFrames resolver packets ∧
    (processDnsQueries resolver hdr true packets false).frames =
      renderFrames hdr (plainDnsFrames resolver packets) ∧
    (∀ p ∈ packets, [p.length / 256, p.length % 256] =
      [p.length / 256 % 256, p.length % 256]) :=
  ⟨splitDnsChunk_encode packets,
   processDnsQueries_posts resolver hdr true packets false,
   processDnsQueries_sent_frames resolver hdr packets,
   processDnsQueries_fresh_frames resolver hdr packets,
   fun p hp => by have := hb p hp; simp [Nat.mod_eq_of_lt (by omega : p.length / 256 < 256)]⟩

/-- C8 witness: a chunk holding two length-prefixed queries, one of
which fails at the resolver, yields one POST per query and one framed
reply for the success. -/
theorem dns_framing_amended_witness :
    splitDnsChunk (((([[7], [8, 8]] : List (List Nat))).map encodeDnsPacket).flatten) =
      some [[7], [8, 8]] ∧
    (processDnsQueries (fun q => if q = [7] then some [171] else none) [0, 0]
      true [[7], [8, 8]] false).frames =
      renderFrames [0, 0]
        (plainDnsFrames (fun q => if q = [7] then some [171] else none) [[7], [8, 8]]) :=
  ⟨(dns_framing_amended (fun q => if q = [7] then some [171] else none)
      [[7], [8, 8]] [0, 0] (by decide)).1,
   (dns_framing_amended (fun q => if q = [7] then some [171] else none)
      [[7], [8, 8]] [0, 0] (by decide)).2.2.2.1⟩

/-- C9, counterexample to the literal claim: an empty
`Sec-WebSocket-Protocol` header yields a null early-data buffer, not an
empty one. -/
theorem early_data_decode_cex :
    (base64ToArrayBuffer "").earlyData = none ∧
    (base64ToArrayBuffer "").earlyData ≠ some [] := by decide

/-- C9 (amended): early-data decoding maps `-` to `+` and `_` to `/`
then base64-decodes; an empty header yields a null (not empty) buffer
and no error; a decoding failure errors the ingress stream immediately;
on success the decoded bytes are the first chunk of the ingress stream,
ahead of all WebSocket-delivered data.  The URL-safe mapping is
witnessed by `"_-8"`, which decodes only after the character swap. -/
theorem early_data_decode_amended :
    base64ToArrayBuffer "" = ⟨none, none⟩ ∧
    (∀ (s : String) (ws : List (List Nat)) (e : String),
      (base64ToArrayBuffer s).error = some e →
        MakeReadableWebSocketStream s ws = .error e) ∧
    (∀ (s : String) (ws : List (List Nat)) (d : List Nat),
      base64ToArrayBuffer s = ⟨some d, none⟩ →
        MakeReadableWebSocketStream s ws = .ok (d :: ws)) ∧
    base64ToArrayBuffer "_-8" = ⟨some [255, 239], none⟩ := by
  refine ⟨by decide, ?_, ?_, by decide⟩
  · intro s ws e he
    cases hb : base64ToArrayBuffer s with
    | mk d err =>
      simp [hb] at he
      simp [MakeReadableWebSocketStream, hb, he]
  · intro s ws d hb
    simp [MakeReadableWebSocketStream, hb]

/-- C9 witness: a URL-safe header decodes and is enqueued ahead of the
WebSocket chunks; the hypotheses of the amended theorem hold at
concrete inputs. -/
theorem early_data_decode_amended_witness :
    MakeReadableWebSocketStream "_w" [[1, 2]] = .ok ([255] :: [[1, 2]]) :=
  early_data_decode_amended.2.2.1 "_w" [[1, 2]] [255] (by decide)

/-- The user id check of `ProcessProtocolHeader` succeeds: the sixteen
id bytes stringify to a canonical UUID whose user exists and is
unexpired. -/
def authPassed (buf : List Nat) (env : Env) : Prop :=
  ∃ u, uuidStringify (sliceBytes buf 1 17) = some u ∧ env.users u = some true

/-- The command byte `getUint8(18 + optLength)`, when both reads are in
bounds. -/
def cmdRead (buf : List Nat) : Option Nat :=
  match buf[17]? with
  | some o => buf[18 + o]?
  | none => none

/-- The big-endian port `getUint16(portIndex)`, when in bounds. -/
def portRead (buf : List Nat) : Option Nat :=
  match buf[17]? with
  | some o => getUint16 buf (18 + o + 1)
  | none => none

/-- The address type byte `getUint8(portIndex + 2)`, when in bounds. -/
def atypRead (buf : List Nat) : Option Nat :=
  match buf[17]? with
  | some o => buf[18 + o + 1 + 2]?
  | none => none

/-- Outcome of the address `switch` at the offsets the parser uses. -/
def addrDecoded (buf : List Nat) : Option AddrDecode :=
  match buf[17]?, atypRead buf with
  | some o, some a => some (decodeAddr buf (18 + o + 1) a)
  | _, _ => none

/-- The unsupported-command message never collides with the
authentication error message. -/
theorem cmdMsg_ne_auth (c : Nat) :
    ("command " ++ toString c ++ " is not supported") ≠ "invalid or expired user" := by
  intro h
  have h2 := congrArg String.data h
  simp only [String.data_append] at h2
  simp at h2

/-- The invalid-address-type message never collides with the
authentication error message. -/
theorem atypeMsg_ne_auth (a : Nat) :
    ("invalid addressType: " ++ toString a) ≠ "invalid or expired user" := by
  intro h
  have h2 := congrArg String.data h
  simp only [String.data_append] at h2
  simp at h2

/-- The empty-address message never collides with the authentication
error message. -/
theorem emptyMsg_ne_auth (a : Nat) :
    ("addressValue is empty, addressType is " ++ toString a) ≠
      "invalid or expired user" := by
  intro h
  have h2 := congrArg String.data h
  simp only [String.data_append] at h2
  simp at h2

/-- Inversion of a successful parse: every field of the returned header
comes from the documented read offsets, the user is authenticated, the
command is 1 or 2, the address is non-empty, and the payload starts at
`addressValueIndex + addressLength`. -/
theorem ProcessProtocolHeader_ok_inversion (buf : List Nat) (env : Env)
    (h : ProtocolHeader) (hp : ProcessProtocolHeader buf env = .ok h) :
    24 ≤ buf.length ∧
    (∃ u, uuidStringify (sliceBytes buf 1 17) = some u ∧ env.users u = some true) ∧
    (∃ c, cmdRead buf = some c ∧ (c = 1 ∨ c = 2) ∧ h.isUDP = (c == 2)) ∧
    portRead buf = some h.portRemote ∧
    atypRead buf = some h.addressType ∧
    (∃ vi ln, addrDecoded buf = some (.decoded h.addressRemote vi ln) ∧
      h.rawDataIndex = vi + ln) ∧
    h.addressRemote ≠ "" ∧
    h.version = (buf[0]?).getD 0 := by
  unfold ProcessProtocolHeader at hp
  split at hp
  · exact ParseResult.noConfusion hp
  next hlen =>
  split at hp
  · exact ParseResult.noConfusion hp
  next u hu =>
  split at hp
  · exact ParseResult.noConfusion hp
  next b henv =>
  split at hp
  · exact ParseResult.noConfusion hp
  next hbtrue =>
  split at hp
  · exact ParseResult.noConfusion hp
  next o ho =>
  split at hp
  · exact ParseResult.noConfusion hp
  next c hc =>
  split at hp
  · exact ParseResult.noConfusion hp
  next hcval =>
  split at hp
  · exact ParseResult.noConfusion hp
  next p hport =>
  split at hp
  · exact ParseResult.noConfusion hp
  next a hatyp =>
  split at hp
  · exact ParseResult.noConfusion hp
  · exact ParseResult.noConfusion hp
  next v vi ln haddr =>
  split at hp
  · exact ParseResult.noConfusion hp
  next hvne =>
  cases hp
  refine ⟨by omega, ⟨u, hu, ?_⟩, ⟨c, ?_, ?_, rfl⟩, ?_, ?_, ⟨vi, ln, ?_, rfl⟩, hvne, rfl⟩
  · cases b with
    | false => simp at hbtrue
    | true => exact henv
  · simp [cmdRead, ho, hc]
  · rcases Decidable.em (c = 1) with h1 | h1
    · exact Or.inl h1
    · rcases Decidable.em (c = 2) with h2 | h2
      · exact Or.inr h2
      · exact absurd ⟨h1, h2⟩ hcval
  · simp [portRead, ho, hport]
  · simp [atypRead, ho, hatyp]
  · simp [addrDecoded, atypRead, ho, hatyp, haddr]

/-- JS `slice` at `[s, s + n)` is drop-then-take. -/
theorem sliceBytes_eq_drop_take (l : List Nat) (s n : Nat) :
    sliceBytes l s (s + n) = (l.drop s).take n := by
  unfold sliceBytes
  exact (List.take_drop s n l).symm

/-- A hex digit character is in the regex class `[1-5]` exactly when its
value is. -/
theorem isVerChar_digitChar (n : Nat) (h : n < 16) :
    isVerChar (Nat.digitChar n) = decide (1 ≤ n ∧ n ≤ 5) := by
  interval_cases n <;> decide

/-- A hex digit character is in the regex class `[89ab]` exactly when
its value is. -/
theorem isVarChar_digitChar (n : Nat) (h : n < 16) :
    isVarChar (Nat.digitChar n) = decide (8 ≤ n ∧ n ≤ 11) := by
  interval_cases n <;> decide

/-- A string passing `isValidUUID` has a `[1-5]` character at index 14
and an `[89ab]` character at index 19. -/
theorem isValidUUID_chars (s : String) (h : isValidUUID s = true) :
    isVerChar (s.data.getD 14 ' ') = true ∧ isVarChar (s.data.getD 19 ' ') = true := by
  unfold isValidUUID at h
  split at h
  · next heq =>
    simp only [Bool.and_eq_true] at h
    rw [heq]
    exact ⟨h.1.2, h.2⟩
  · simp at h

/-- Character 14 of the rendered UUID is the version nibble of id
byte 6. -/
theorem uuidStringifyRaw_char14 (b : List Nat) :
    (uuidStringifyRaw b).data.getD 14 ' ' = Nat.digitChar (b.getD 6 0 / 16 % 16) := by
  simp [uuidStringifyRaw, hexPairChars, List.getD]

/-- Character 19 of the rendered UUID is the variant nibble of id
byte 8. -/
theorem uuidStringifyRaw_char19 (b : List Nat) :
    (uuidStringifyRaw b).data.getD 19 ' ' = Nat.digitChar (b.getD 8 0 / 16 % 16) := by
  simp [uuidStringifyRaw, hexPairChars, List.getD]

/-- When the version or variant nibble of the sixteen id bytes is
outside the canonical RFC-4122 ranges, the rendered UUID fails
`isValidUUID`. -/
theorem isValidUUID_raw_false (b : List Nat)
    (hno : ¬ (1 ≤ b.getD 6 0 / 16 % 16 ∧ b.getD 6 0 / 16 % 16 ≤ 5 ∧
              8 ≤ b.getD 8 0 / 16 % 16 ∧ b.getD 8 0 / 16 % 16 ≤ 11)) :
    isValidUUID (uuidStringifyRaw b) = false := by
  cases hiv : isValidUUID (uuidStringifyRaw b) with
  | false => rfl
  | true =>
    exfalso
    obtain ⟨hver, hvar⟩ := isValidUUID_chars _ hiv
    rw [uuidStringifyRaw_char14,
      isVerChar_digitChar _ (Nat.mod_lt _ (by norm_num))] at hver
    rw [uuidStringifyRaw_char19,
      isVarChar_digitChar _ (Nat.mod_lt _ (by norm_num))] at hvar
    simp at hver hvar
    simp only [List.getD_eq_getElem?_getD] at hno
    exact hno ⟨hver.1, hver.2, hvar.1, hvar.2⟩

/-- Reading inside the 16-byte user-id slice `buf.slice(1, 17)` is
reading the buffer at offset `1 + i`. -/
theorem sliceBytes_uuid_getD (l : List Nat) (i : Nat) (h : 1 + i < 17) :
    (sliceBytes l 1 17).getD i 0 = l.getD (1 + i) 0 := by
  unfold sliceBytes
  simp [List.getD_eq_getElem?_getD, List.getElem?_drop, List.getElem?_take]
  rw [if_pos (by omega), show i + 1 = 1 + i by omega]

/-- C10: on any buffer of 24 or more bytes whose user-id field has a
version nibble outside 1–5 or a variant nibble outside 8–b, `stringify`
throws a `TypeError` instead of `ProcessProtocolHeader` returning a
structured `hasError` result, so parsing is not total over well-sized
inputs and the structured-error path is bypassed. -/
theorem stringify_throws_on_noncanonical_uuid :
    ∀ (buf : List Nat) (env : Env), 24 ≤ buf.length → (∀ x ∈ buf, x < 256) →
      ¬ (1 ≤ buf.getD 7 0 / 16 ∧ buf.getD 7 0 / 16 ≤ 5 ∧
         8 ≤ buf.getD 9 0 / 16 ∧ buf.getD 9 0 / 16 ≤ 11) →
      ProcessProtocolHeader buf env = .thrown := by
  intro buf env hlen hbytes hno
  have h7lt : (7 : Nat) < buf.length := by omega
  have h9lt : (9 : Nat) < buf.length := by omega
  have h7 : buf.getD 7 0 < 256 := by
    rw [List.getD_eq_getElem _ _ h7lt]
    exact hbytes _ (List.getElem_mem h7lt)
  have h9 : buf.getD 9 0 < 256 := by
    rw [List.getD_eq_getElem _ _ h9lt]
    exact hbytes _ (List.getElem_mem h9lt)
  have hmod7 : buf.getD 7 0 / 16 % 16 = buf.getD 7 0 / 16 :=
    Nat.mod_eq_of_lt (by omega)
  have hmod9 : buf.getD 9 0 / 16 % 16 = buf.getD 9 0 / 16 :=
    Nat.mod_eq_of_lt (by omega)
  have hval : isValidUUID (uuidStringifyRaw (sliceBytes buf 1 17)) = false := by
    apply isValidUUID_raw_false
    rw [sliceBytes_uuid_getD buf 6 (by omega), sliceBytes_uuid_getD buf 8 (by omega),
      hmod7, hmod9]
    exact hno
  have hnone : uuidStringify (sliceBytes buf 1 17) = none := by
    simp [uuidStringify, hval]
  unfold ProcessProtocolHeader
  rw [if_neg (by omega)]
  simp [hnone]

/-- C10 witness: the all-zero 24-byte buffer (version nibble 0) makes
the parser throw. -/
theorem stringify_throws_on_noncanonical_uuid_witness :
    ProcessProtocolHeader (List.replicate 24 0) demoEnv = .thrown :=
  stringify_throws_on_noncanonical_uuid (List.replicate 24 0) demoEnv
    (by decide) (by decide) (by decide)

/-- C3: header parsing returns the authentication error exactly when
the stringified user id is not accepted by the user store (missing or
expired), and on that failure the session is aborted with no frame ever
sent to the client and no outbound dial. -/
theorem auth_error_iff_not_accepted (buf : List Nat) (env : Env) (u : String)
    (hlen : 24 ≤ buf.length) (hu : uuidStringify (sliceBytes buf 1 17) = some u) :
    (ProcessProtocolHeader buf env = .err "invalid or expired user" ↔
      env.users u ≠ some true) ∧
    (env.users u ≠ some true →
      handleFirstChunk buf env = .abort "invalid or expired user" ∧
      actionDialCount (handleFirstChunk buf env) = 0 ∧
      ∀ primary retryChunks budget resolver,
        actionClientFrames (handleFirstChunk buf env) primary retryChunks budget
          resolver = []) := by
  have hmain : ProcessProtocolHeader buf env = .err "invalid or expired user" ↔
      env.users u ≠ some true := by
    unfold ProcessProtocolHeader
    rw [if_neg (by omega)]
    cases henv : env.users u with
    | none => simp [hu, henv]
    | some b =>
      cases b with
      | false => simp [hu, henv]
      | true =>
        rw [hu]
        refine iff_of_false ?_ (by simp [henv])
        simp only [henv]
        intro hres
        rw [if_neg (by simp)] at hres
        split at hres
        · exact ParseResult.noConfusion hres
        next o ho =>
        split at hres
        · exact ParseResult.noConfusion hres
        next c hc =>
        split at hres
        · injection hres with hmsg
          exact cmdMsg_ne_auth c hmsg
        next hcval =>
        split at hres
        · exact ParseResult.noConfusion hres
        next p hport =>
        split at hres
        · exact ParseResult.noConfusion hres
        next a hatyp =>
        split at hres
        · exact ParseResult.noConfusion hres
        · injection hres with hmsg
          exact atypeMsg_ne_auth a hmsg
        next v vi ln haddr =>
        split at hres
        · injection hres with hmsg
          exact emptyMsg_ne_auth a hmsg
        · exact ParseResult.noConfusion hres
  refine ⟨hmain, fun hne => ?_⟩
  have hp := hmain.mpr hne
  have hact : handleFirstChunk buf env = .abort "invalid or expired user" := by
    unfold handleFirstChunk
    rw [hp]
  exact ⟨hact, by rw [hact]; rfl, fun primary rc b r => by rw [hact]; rfl⟩

/-- C3 witness: scenario 1's frame against an empty user store is
rejected with the exact authentication error and a silent abort. -/
theorem auth_error_iff_not_accepted_witness :
    ProcessProtocolHeader tcpFrame ⟨fun _ => none⟩ = .err "invalid or expired user" ∧
    handleFirstChunk tcpFrame ⟨fun _ => none⟩ = .abort "invalid or expired user" :=
  ⟨(auth_error_iff_not_accepted tcpFrame ⟨fun _ => none⟩
      "10e894da-61b1-4998-ac2b-e9ccb6af9d30" (by decide) (by decide)).1.mpr
      (by decide),
   ((auth_error_iff_not_accepted tcpFrame ⟨fun _ => none⟩
      "10e894da-61b1-4998-ac2b-e9ccb6af9d30" (by decide) (by decide)).2
      (by decide)).1⟩

/-- An address type outside 1–3 lands in the `default` branch of the
address switch. -/
theorem decodeAddr_badType_of (buf : List Nat) (pI a : Nat)
    (h1 : a ≠ 1) (h2 : a ≠ 2) (h3 : a ≠ 3) : decodeAddr buf pI a = .badType := by
  match a with
  | 0 => rfl
  | 1 => exact absurd rfl h1
  | 2 => exact absurd rfl h2
  | 3 => exact absurd rfl h3
  | n + 4 => rfl

/-- Only address types outside 1–3 land in the `default` branch. -/
theorem decodeAddr_badType_inv (buf : List Nat) (pI a : Nat)
    (h : decodeAddr buf pI a = .badType) : a ≠ 1 ∧ a ≠ 2 ∧ a ≠ 3 := by
  match a with
  | 1 => simp [decodeAddr] at h
  | 2 => cases hl : buf[pI + 3]? <;> simp [decodeAddr, hl] at h
  | 3 => cases hg : readIpv6Groups buf (pI + 3) 8 <;> simp [decodeAddr, hg] at h
  | 0 => exact ⟨by omega, by omega, by omega⟩
  | n + 4 => exact ⟨by omega, by omega, by omega⟩

/-- Inversion of a structured parse error: it arises only from the five
in-parser cases (short buffer, unauthenticated user, bad command, bad
address type, empty decoded address), each stated through the documented
read offsets. -/
theorem ProcessProtocolHeader_err_inversion (buf : List Nat) (env : Env) (m : String)
    (hp : ProcessProtocolHeader buf env = .err m) :
    buf.length < 24 ∨
    (24 ≤ buf.length ∧ ∃ u, uuidStringify (sliceBytes buf 1 17) = some u ∧
      env.users u ≠ some true) ∨
    (24 ≤ buf.length ∧ authPassed buf env ∧
      ∃ c, cmdRead buf = some c ∧ c ≠ 1 ∧ c ≠ 2) ∨
    (24 ≤ buf.length ∧ authPassed buf env ∧
      (cmdRead buf = some 1 ∨ cmdRead buf = some 2) ∧
      (∃ p, portRead buf = some p) ∧
      (∃ a, atypRead buf = some a ∧ a ≠ 1 ∧ a ≠ 2 ∧ a ≠ 3)) ∨
    (24 ≤ buf.length ∧ authPassed buf env ∧
      (cmdRead buf = some 1 ∨ cmdRead buf = some 2) ∧
      (∃ p, portRead buf = some p) ∧
      (∃ vi ln, addrDecoded buf = some (.decoded "" vi ln))) := by
  unfold ProcessProtocolHeader at hp
  split at hp
  · next hlen => exact Or.inl hlen
  next hlen =>
  have hlen24 : 24 ≤ buf.length := by omega
  split at hp
  · exact ParseResult.noConfusion hp
  next u hu =>
  split at hp
  · next henv =>
    exact Or.inr (Or.inl ⟨hlen24, u, hu, by simp [henv]⟩)
  next b henv =>
  split at hp
  · next hbfalse =>
    refine Or.inr (Or.inl ⟨hlen24, u, hu, ?_⟩)
    rw [henv, hbfalse]
    simp
  next hbtrue =>
  have hbt : b = true := by
    cases b with
    | false => simp at hbtrue
    | true => rfl
  subst hbt
  have hauth : authPassed buf env := ⟨u, hu, henv⟩
  split at hp
  · exact ParseResult.noConfusion hp
  next o ho =>
  split at hp
  · exact ParseResult.noConfusion hp
  next c hc =>
  have hcr : cmdRead buf = some c := by simp [cmdRead, ho, hc]
  split at hp
  · next hcval =>
    exact Or.inr (Or.inr (Or.inl ⟨hlen24, hauth, c, hcr, hcval.1, hcval.2⟩))
  next hcval =>
  have hc12 : cmdRead buf = some 1 ∨ cmdRead buf = some 2 := by
    rcases Decidable.em (c = 1) with h1 | h1
    · exact Or.inl (h1 ▸ hcr)
    · rcases Decidable.em (c = 2) with h2 | h2
      · exact Or.inr (h2 ▸ hcr)
      · exact absurd ⟨h1, h2⟩ hcval
  split at hp
  · exact ParseResult.noConfusion hp
  next p hport =>
  have hpr : portRead buf = some p := by simp [portRead, ho, hport]
  split at hp
  · exact ParseResult.noConfusion hp
  next a hatyp =>
  have har : atypRead buf = some a := by simp [atypRead, ho, hatyp]
  split at hp
  · exact ParseResult.noConfusion hp
  · next hbad =>
    obtain ⟨h1, h2, h3⟩ := decodeAddr_badType_inv buf (18 + o + 1) a hbad
    exact Or.inr (Or.inr (Or.inr (Or.inl
      ⟨hlen24, hauth, hc12, ⟨p, hpr⟩, a, har, h1, h2, h3⟩)))
  next v vi ln haddr =>
  split at hp
  · next hveq =>
    subst hveq
    refine Or.inr (Or.inr (Or.inr (Or.inr
      ⟨hlen24, hauth, hc12, ⟨p, hpr⟩, vi, ln, ?_⟩)))
    simp [addrDecoded, atypRead, ho, hatyp, haddr]
  · exact ParseResult.noConfusion hp

/-- Forward computation of a fully successful parse. -/
theorem ProcessProtocolHeader_computes_ok (buf : List Nat) (env : Env)
    (u : String) (o c p a : Nat) (v : String) (vi ln : Nat)
    (hlen : 24 ≤ buf.length) (hu : uuidStringify (sliceBytes buf 1 17) = some u)
    (henv : env.users u = some true) (ho : buf[17]? = some o)
    (hc : buf[18 + o]? = some c) (hcv : c = 1 ∨ c = 2)
    (hport : getUint16 buf (18 + o + 1) = some p)
    (hatyp : buf[18 + o + 1 + 2]? = some a)
    (haddr : decodeAddr buf (18 + o + 1) a = .decoded v vi ln) (hv : v ≠ "") :
    ProcessProtocolHeader buf env =
      .ok ⟨v, a, p, vi + ln, (buf[0]?).getD 0, c == 2⟩ := by
  unfold ProcessProtocolHeader
  rw [if_neg (by omega)]
  simp only [hu, henv, ho, hc, hport, hatyp, haddr]
  rw [if_neg (by simp), if_neg (by rcases hcv with h | h <;> simp [h]), if_neg hv]

/-- C4: the first-chunk handler aborts the session with a structured
`controller.error` exactly when the input is shorter than 24 bytes, the
user id is unauthenticated, the command byte is outside {1,2}, the
address type is outside {1,2,3}, the decoded address is empty, or UDP
(command 2) is requested on a port other than 53 — and in every such
case no outbound dial is attempted. -/
theorem structured_error_exactly_cases (buf : List Nat) (env : Env) :
    ((∃ m, handleFirstChunk buf env = .abort m) ↔
      (buf.length < 24 ∨
       (24 ≤ buf.length ∧ ∃ u, uuidStringify (sliceBytes buf 1 17) = some u ∧
         env.users u ≠ some true) ∨
       (24 ≤ buf.length ∧ authPassed buf env ∧
         ∃ c, cmdRead buf = some c ∧ c ≠ 1 ∧ c ≠ 2) ∨
       (24 ≤ buf.length ∧ authPassed buf env ∧
         (cmdRead buf = some 1 ∨ cmdRead buf = some 2) ∧
         (∃ p, portRead buf = some p) ∧
         (∃ a, atypRead buf = some a ∧ a ≠ 1 ∧ a ≠ 2 ∧ a ≠ 3)) ∨
       (24 ≤ buf.length ∧ authPassed buf env ∧
         (cmdRead buf = some 1 ∨ cmdRead buf = some 2) ∧
         (∃ p, portRead buf = some p) ∧
         (∃ vi ln, addrDecoded buf = some (.decoded "" vi ln))) ∨
       (24 ≤ buf.length ∧ authPassed buf env ∧ cmdRead buf = some 2 ∧
         (∃ p, portRead buf = some p ∧ p ≠ 53) ∧
         (∃ v vi ln, addrDecoded buf = some (.decoded v vi ln) ∧ v ≠ "")))) ∧
    (∀ m, handleFirstChunk buf env = .abort m →
      actionDialCount (handleFirstChunk buf env) = 0) := by
  constructor
  · constructor
    · rintro ⟨m, hm⟩
      unfold handleFirstChunk at hm
      cases hpp : ProcessProtocolHeader buf env with
      | thrown => simp only [hpp] at hm; exact FirstChunkAction.noConfusion hm
      | err msg =>
        exact (ProcessProtocolHeader_err_inversion buf env msg hpp).imp id
          (Or.imp id (Or.imp id (Or.imp id Or.inl)))
      | ok h =>
        simp only [hpp] at hm
        obtain ⟨hlen24, hauth, ⟨c, hcr, hcv, hudp⟩, hpr, har, ⟨vi, ln, hdec, _⟩,
          hvne, _⟩ := ProcessProtocolHeader_ok_inversion buf env h hpp
        split at hm
        · next hisudp =>
          split at hm
          · exact FirstChunkAction.noConfusion hm
          · next hp53 =>
            have hc2 : c = 2 := by
              rw [hisudp] at hudp
              rcases hcv with h1 | h1
              · rw [h1] at hudp; simp at hudp
              · exact h1
            refine Or.inr (Or.inr (Or.inr (Or.inr (Or.inr
              ⟨hlen24, hauth, hc2 ▸ hcr, ⟨h.portRemote, hpr, hp53⟩,
               h.addressRemote, vi, ln, hdec, hvne⟩))))
        · exact FirstChunkAction.noConfusion hm
    · intro hd
      rcases hd with h1 | ⟨hlen, u, hu, hne⟩ | ⟨hlen, ⟨u, hu, henv⟩, c, hcr, hc1, hc2⟩ |
        ⟨hlen, ⟨u, hu, henv⟩, hcmd, ⟨p, hpr⟩, ⟨a, har, ha1, ha2, ha3⟩⟩ |
        ⟨hlen, ⟨u, hu, henv⟩, hcmd, ⟨p, hpr⟩, ⟨vi, ln, hdec⟩⟩ |
        ⟨hlen, ⟨u, hu, henv⟩, hcmd, ⟨p, hpr, hp53⟩, ⟨v, vi, ln, hdec, hvne⟩⟩
      · refine ⟨"invalid data", ?_⟩
        have hperr : ProcessProtocolHeader buf env = .err "invalid data" := by
          unfold ProcessProtocolHeader
          rw [if_pos h1]
        unfold handleFirstChunk
        rw [hperr]
      · refine ⟨"invalid or expired user", ?_⟩
        have hperr : ProcessProtocolHeader buf env = .err "invalid or expired user" := by
          unfold ProcessProtocolHeader
          rw [if_neg (by omega)]
          simp only [hu]
          cases henv : env.users u with
          | none => simp [henv]
          | some b =>
            cases b with
            | false => simp [henv]
            | true => exact absurd henv hne
        unfold handleFirstChunk
        rw [hperr]
      · obtain ⟨o, ho, hco⟩ : ∃ o, buf[17]? = some o ∧ buf[18 + o]? = some c := by
          cases ho : buf[17]? with
          | none => simp [cmdRead, ho] at hcr
          | some o => exact ⟨o, rfl, by simpa [cmdRead, ho] using hcr⟩
        refine ⟨"command " ++ toString c ++ " is not supported", ?_⟩
        have hperr : ProcessProtocolHeader buf env =
            .err ("command " ++ toString c ++ " is not supported") := by
          unfold ProcessProtocolHeader
          rw [if_neg (by omega)]
          simp only [hu, henv, ho, hco]
          rw [if_neg (by simp), if_pos ⟨hc1, hc2⟩]
        unfold handleFirstChunk
        rw [hperr]
      · obtain ⟨o, ho⟩ : ∃ o, buf[17]? = some o := by
          cases ho : buf[17]? with
          | none => simp [portRead, ho] at hpr
          | some o => exact ⟨o, rfl⟩
        obtain ⟨c, hco, hcv⟩ : ∃ c, buf[18 + o]? = some c ∧ (c = 1 ∨ c = 2) := by
          rcases hcmd with h | h
          · exact ⟨1, by simpa [cmdRead, ho] using h, Or.inl rfl⟩
          · exact ⟨2, by simpa [cmdRead, ho] using h, Or.inr rfl⟩
        have hport : getUint16 buf (18 + o + 1) = some p := by
          simpa [portRead, ho] using hpr
        have hatyp : buf[18 + o + 1 + 2]? = some a := by
          simpa [atypRead, ho] using har
        have hbad : decodeAddr buf (18 + o + 1) a = .badType :=
          decodeAddr_badType_of buf (18 + o + 1) a ha1 ha2 ha3
        refine ⟨"invalid addressType: " ++ toString a, ?_⟩
        have hperr : ProcessProtocolHeader buf env =
            .err ("invalid addressType: " ++ toString a) := by
          unfold ProcessProtocolHeader
          rw [if_neg (by omega)]
          simp only [hu, henv, ho, hco, hport, hatyp, hbad]
          rw [if_neg (by simp), if_neg (by rcases hcv with h | h <;> simp [h])]
        unfold handleFirstChunk
        rw [hperr]
      · obtain ⟨o, ho⟩ : ∃ o, buf[17]? = some o := by
          cases ho : buf[17]? with
          | none => simp [portRead, ho] at hpr
          | some o => exact ⟨o, rfl⟩
        obtain ⟨c, hco, hcv⟩ : ∃ c, buf[18 + o]? = some c ∧ (c = 1 ∨ c = 2) := by
          rcases hcmd with h | h
          · exact ⟨1, by simpa [cmdRead, ho] using h, Or.inl rfl⟩
          · exact ⟨2, by simpa [cmdRead, ho] using h, Or.inr rfl⟩
        have hport : getUint16 buf (18 + o + 1) = some p := by
          simpa [portRead, ho] using hpr
        obtain ⟨a, hatyp, haddr⟩ : ∃ a, buf[18 + o + 1 + 2]? = some a ∧
            decodeAddr buf (18 + o + 1) a = .decoded "" vi ln := by
          cases hat : atypRead buf with
          | none => simp [addrDecoded, hat] at hdec
          | some a =>
            refine ⟨a, by simpa [atypRead, ho] using hat, ?_⟩
            simpa [addrDecoded, ho, hat] using hdec
        refine ⟨"addressValue is empty, addressType is " ++ toString a, ?_⟩
        have hperr : ProcessProtocolHeader buf env =
            .err ("addressValue is empty, addressType is " ++ toString a) := by
          unfold ProcessProtocolHeader
          rw [if_neg (by omega)]
          simp only [hu, henv, ho, hco, hport, hatyp, haddr]
          rw [if_neg (by simp), if_neg (by rcases hcv with h | h <;> simp [h])]
          simp
        unfold handleFirstChunk
        rw [hperr]
      · obtain ⟨o, ho⟩ : ∃ o, buf[17]? = some o := by
          cases ho : buf[17]? with
          | none => simp [portRead, ho] at hpr
          | some o => exact ⟨o, rfl⟩
        have hco : buf[18 + o]? = some 2 := by simpa [cmdRead, ho] using hcmd
        have hport : getUint16 buf (18 + o + 1) = some p := by
          simpa [portRead, ho] using hpr
        obtain ⟨a, hatyp, haddr⟩ : ∃ a, buf[18 + o + 1 + 2]? = some a ∧
            decodeAddr buf (18 + o + 1) a = .decoded v vi ln := by
          cases hat : atypRead buf with
          | none => simp [addrDecoded, hat] at hdec
          | some a =>
            refine ⟨a, by simpa [atypRead, ho] using hat, ?_⟩
            simpa [addrDecoded, ho, hat] using hdec
        have hpok := ProcessProtocolHeader_computes_ok buf env u o 2 p a v vi ln
          hlen hu henv ho hco (Or.inr rfl) hport hatyp haddr hvne
        refine ⟨"UDP proxy only for DNS (port 53)", ?_⟩
        unfold handleFirstChunk
        rw [hpok]
        simp [hp53]
  · rintro m hm
    rw [hm]
    rfl

/-- C4 witness: a one-byte chunk aborts with a structured error (the
short-buffer case) and performs no dial. -/
theorem structured_error_exactly_cases_witness :
    (∃ m, handleFirstChunk [0] demoEnv = .abort m) ∧
    actionDialCount (handleFirstChunk [0] demoEnv) = 0 :=
  ⟨(structured_error_exactly_cases [0] demoEnv).1.mpr (Or.inl (by decide)),
   (structured_error_exactly_cases [0] demoEnv).2 "invalid data" (by decide)⟩

/-- C7: the decoded destination address is formatted as the dotted quad
of the four bytes for address type 1, as the UTF-8 decoding of the
length-prefixed slice for address type 2, and as eight colon-separated
lowercase hex groups for address type 3 (the spec example
`2001:0db8:...:0001` parses to `2001:db8:0:0:0:0:0:1`); the payload
begins at `addressValueIndex + addressLength`, and an empty payload is
accepted (the scenario-2 frame ends exactly at `rawDataIndex`). -/
theorem parsed_address_formatting :
    (∀ (buf : List Nat) (env : Env) (h : ProtocolHeader) (o : Nat),
      buf[17]? = some o → ProcessProtocolHeader buf env = .ok h →
      (h.addressType = 1 →
        h.addressRemote =
          String.intercalate "." (((buf.drop (18 + o + 4)).take 4).map jsDecString) ∧
        h.rawDataIndex = 18 + o + 4 + 4) ∧
      (h.addressType = 2 → ∃ L, buf[18 + o + 4]? = some L ∧
        h.addressRemote = utf8Decode ((buf.drop (18 + o + 5)).take L) ∧
        h.rawDataIndex = 18 + o + 5 + L) ∧
      (h.addressType = 3 → ∃ gs, readIpv6Groups buf (18 + o + 4) 8 = some gs ∧
        h.addressRemote = String.intercalate ":" (gs.map jsHexString) ∧
        h.rawDataIndex = 18 + o + 4 + 16)) ∧
    ProcessProtocolHeader ipv6Frame demoEnv =
      .ok { addressRemote := "2001:db8:0:0:0:0:0:1", addressType := 3,
            portRemote := 443, rawDataIndex := 38, version := 0, isUDP := false } ∧
    ipv6Frame.length = 38 := by
  refine ⟨?_, by decide, by decide⟩
  intro buf env h o ho hp
  obtain ⟨hlen24, hauth, hcmd, hpr, har, ⟨vi, ln, hdec, hraw⟩, hvne, hver⟩ :=
    ProcessProtocolHeader_ok_inversion buf env h hp
  have hatyp : buf[18 + o + 1 + 2]? = some h.addressType := by
    simpa [atypRead, ho] using har
  have hdeq : decodeAddr buf (18 + o + 1) h.addressType =
      .decoded h.addressRemote vi ln := by
    have : addrDecoded buf = some (decodeAddr buf (18 + o + 1) h.addressType) := by
      simp [addrDecoded, ho, atypRead, hatyp]
    rw [this] at hdec
    exact Option.some.inj hdec
  have e3 : 18 + o + 1 + 3 = 18 + o + 4 := by omega
  have e4 : 18 + o + 1 + 4 = 18 + o + 5 := by omega
  refine ⟨fun h1 => ?_, fun h2 => ?_, fun h3 => ?_⟩
  · rw [h1] at hdeq
    unfold decodeAddr at hdeq
    rw [AddrDecode.decoded.injEq] at hdeq
    obtain ⟨hv, hvi, hln⟩ := hdeq
    constructor
    · rw [← hv]
      congr 1
      rw [e3, show 18 + o + 1 + 3 + 4 = 18 + o + 4 + 4 from by omega,
        sliceBytes_eq_drop_take buf (18 + o + 4) 4]
    · omega
  · rw [h2] at hdeq
    unfold decodeAddr at hdeq
    cases hl : buf[18 + o + 1 + 3]? with
    | none => rw [hl] at hdeq; exact AddrDecode.noConfusion hdeq
    | some L =>
      rw [hl] at hdeq
      rw [AddrDecode.decoded.injEq] at hdeq
      obtain ⟨hv, hvi, hln⟩ := hdeq
      refine ⟨L, rfl, ?_, by omega⟩
      rw [← hv]
      congr 1
      rw [e4, show 18 + o + 1 + 4 + L = 18 + o + 5 + L from by omega,
        sliceBytes_eq_drop_take buf (18 + o + 5) L]
  · rw [h3] at hdeq
    unfold decodeAddr at hdeq
    cases hg : readIpv6Groups buf (18 + o + 1 + 3) 8 with
    | none => rw [hg] at hdeq; exact AddrDecode.noConfusion hdeq
    | some gs =>
      rw [hg] at hdeq
      rw [AddrDecode.decoded.injEq] at hdeq
      obtain ⟨hv, hvi, hln⟩ := hdeq
      refine ⟨gs, rfl, by rw [← hv], by omega⟩

/-- C7 witness: scenario 1's IPv4 frame, with the offset formulas
evaluated at `optLength = 0`. -/
theorem parsed_address_formatting_witness :
    ProcessProtocolHeader tcpFrame demoEnv =
      .ok { addressRemote := "1.2.3.4", addressType := 1, portRemote := 443,
            rawDataIndex := 26, version := 0, isUDP := false } ∧
    "1.2.3.4" =
      String.intercalate "." (((tcpFrame.drop 22).take 4).map jsDecString) ∧
    (26 : Nat) = 22 + 4 := by
  have h := ((parsed_address_formatting.1 tcpFrame demoEnv
    { addressRemote := "1.2.3.4", addressType := 1, portRemote := 443,
      rawDataIndex := 26, version := 0, isUDP := false } 0 (by decide)
    (by decide)).1) rfl
  exact ⟨by decide, by simpa using h.1, by norm_num⟩
